import Mathlib

/-!
Verification development for the `river` feed-polling engine
(src/river/item.py, src/river/feed.py, src/river/index.py, src/river/main.py).

Shallow embedding conventions:
* Instants are integers (seconds since the Unix epoch). `arrow.Arrow(2000, 1, 1)`
  is the constant `y2000`; `arrow.Arrow(1970, 1, 1)` is `0`.
* Python exceptions are modelled with `Except PyError`; a function that can
  raise while mutating state returns the state at the raise point together
  with an `Option PyError`.
* The random source (`random.randint`) is an explicit oracle parameter
  `rand : Int → Int → Int`; `RandOk rand` states the randint contract
  (`lo ≤ rand lo hi ≤ hi` whenever `lo ≤ hi`).
* HTTP fetching is an input `FetchResult` (success with a parsed body,
  HTTP 304 reuse of the cache, or a download error); feedparser output is the
  already-parsed `FeedDoc`.  The on-disk payload cache is the `cachedDoc`
  field; the daily JSON archive file is the `archive` field.
* SHA-1 in `Item.fingerprint` is abstracted by keeping the hashed text
  (collisions of distinct texts are not modelled); bleach HTML sanitization
  in `Item.clean_text` is abstracted as the identity on the text.
* Class attributes of `Feed` (`min_update_interval` etc.) are the constants
  below, matching both the class defaults and the CLI defaults in main.py.
  The class-level sharing of the `updates` deque across instances is not
  modelled (all claims concern a single feed).
-/

/-- Seconds since epoch of 2000-01-01T00:00:00Z (`arrow.Arrow(2000, 1, 1)`). -/
def y2000 : Int := 946684800

/-- `Feed.min_update_interval` (15*60). -/
def min_update_interval : Int := 900

/-- `Feed.max_update_interval` (60*60). -/
def max_update_interval : Int := 3600

/-- `Feed.default_update_interval` (60*60). -/
def default_update_interval : Int := 3600

/-- `Feed.window`: number of timestamps used for the update interval. -/
def window : Nat := 10

/-- `Feed.initial_limit`: max number of items stored on first check. -/
def initial_limit : Nat := 5

/-- `deque(maxlen=1000)` capacity of `Feed.fingerprints`. -/
def fingerprintCap : Nat := 1000

/-- `deque(maxlen=500)` capacity of `Feed.updates`. -/
def updatesCap : Nat := 500

/-- Python exceptions that the embedded code can raise. -/
inductive PyError where
  | typeError
  | indexError
  | downloadError
deriving DecidableEq, Repr

/-- Python call-arity check: calling a function with `required` mandatory
positional parameters and `optional` defaulted ones, passing `given`
positional arguments, raises `TypeError` on a mismatch. -/
def pyCall (required optional given : Nat) : Option PyError :=
  if given < required || required + optional < given then some .typeError else none

/-- One raw feedparser entry.  Date fields (`published_parsed` etc.) carry the
instant the parsed time tuple denotes; `none` is an absent (or falsy) field. -/
structure Entry where
  guid : Option String := none
  title : Option String := none
  link : Option String := none
  description : Option String := none
  comments : Option String := none
  published_parsed : Option Int := none
  updated_parsed : Option Int := none
  created_parsed : Option Int := none
deriving DecidableEq, Repr

/-- Python string coercion of an optional field: absent means `""`. -/
def pyStr (o : Option String) : String := o.getD ""

/-- An item fingerprint: the entry's guid when it is truthy, otherwise the
SHA-1 of title ++ link (the hash itself is abstracted; the hashed text is
kept). -/
inductive Fingerprint where
  | guid (g : String)
  | hashed (s : String)
deriving DecidableEq, Repr

/-- `Item.fingerprint` applied to the raw entry: `guid` if truthy, else
sha1(title ++ link). -/
def Entry.fingerprint (e : Entry) : Fingerprint :=
  if pyStr e.guid ≠ "" then .guid (pyStr e.guid)
  else .hashed (pyStr e.title ++ pyStr e.link)

/-- The loop body of `Item.timestamp` over the candidate date fields
`[published_parsed, updated_parsed, created_parsed]`: a falsy field is
skipped; a pre-2000 value returns `None`; a value before `created` is
returned; otherwise the scan continues; exhaustion falls back to `created`. -/
def resolveTimestamp (created : Int) : List (Option Int) → Option Int
  | [] => some created
  | none :: rest => resolveTimestamp created rest
  | some v :: rest =>
    if v < y2000 then none
    else if v < created then some v
    else resolveTimestamp created rest

/-- `Item`: wraps the raw entry together with `self.created = arrow.utcnow()`
captured at construction. -/
structure Item where
  item : Entry
  created : Int
deriving DecidableEq, Repr

/-- `Item(entry)` constructed at instant `now`. -/
def mkItem (e : Entry) (now : Int) : Item := ⟨e, now⟩

/-- The `Item.timestamp` property. -/
def Item.timestamp (it : Item) : Option Int :=
  resolveTimestamp it.created
    [it.item.published_parsed, it.item.updated_parsed, it.item.created_parsed]

/-- The `Item.timestamp_provided` property (`self.timestamp != self.created`;
note `None != created` is true in Python). -/
def Item.timestamp_provided (it : Item) : Bool :=
  it.timestamp ≠ some it.created

/-- The `Item.fingerprint` property. -/
def Item.fingerprint (it : Item) : Fingerprint := it.item.fingerprint

/-- `Item.clean_text`: bleach sanitization plus 280-char truncation of an
external library, abstracted as the identity on the text. -/
def cleanText (s : String) : String := s

/-- The dictionary produced by `Item.info`. -/
structure ItemInfo where
  timestamp : Int
  guid : String
  title : Option String
  body : Option String
  link : Option String
  comments : Option String
deriving DecidableEq, Repr

/-- The `Item.info` property (`str(self.timestamp or arrow.Arrow(1970, 1, 1))`
renders a `None` timestamp as the epoch, i.e. `0`). -/
def Item.info (it : Item) : ItemInfo :=
  let title := pyStr it.item.title
  let desc := pyStr it.item.description
  let tb : Option String × Option String :=
    if title ≠ "" ∧ desc ≠ "" then
      let t := cleanText title
      let b := cleanText desc
      (some t, some (if t = b then "" else b))
    else if title = "" ∧ desc ≠ "" then
      (some (cleanText desc), some "")
    else if title ≠ "" then
      (some (cleanText title), some "")
    else (none, none)
  { timestamp := it.timestamp.getD 0
    guid := pyStr it.item.guid
    title := tb.1
    body := tb.2
    link := match it.item.link with
            | some l => if l ≠ "" then some l else none
            | none => none
    comments := match it.item.comments with
                | some c => if c ≠ "" then some c else none
                | none => none }

/-- A parsed feed body (`feedparser.parse` output): feed-level metadata plus
the ordered entries. -/
structure FeedDoc where
  feedTitle : Option String := none
  feedDescription : Option String := none
  feedLink : Option String := none
  entries : List Entry := []
deriving DecidableEq, Repr

/-- Outcome of one HTTP fetch of the feed: a 200 with a (parsed) body, a 304
(or other non-200 success) that reuses the cached payload, or a download
error (`requests` exception / timeout). -/
inductive FetchResult where
  | ok (doc : FeedDoc)
  | notModified
  | err
deriving DecidableEq, Repr

/-- The feed-metadata snapshot stored inside an update record. -/
structure UpdateFeedMeta where
  title : String
  description : String
  web_url : String
  feed_url : String
deriving DecidableEq, Repr

/-- The dictionary produced by `Feed.build_update` (the `uuid` field, a
random opaque identifier, is not modelled; `initial_check` records whether
the key was set). -/
structure Update where
  timestamp : Int
  feed : UpdateFeedMeta
  initial_check : Bool
  feed_items : List ItemInfo
deriving DecidableEq, Repr

/-- The mutable state of one `Feed` instance.  `archive` models the content
of today's JSON archive file (newest first); `updatesDeque` models the
`updates` deque; `cachedDoc` models the on-disk payload cache (as parsed);
`parsed` is the `self.parsed` attribute set by `__iter__`. -/
structure Feed where
  url : String
  title : Option String := none
  last_checked : Option Int := none
  failed : Bool := false
  timestamps : List Int := []
  random_interval : Int
  fingerprints : List Fingerprint := []
  initial_check : Bool := true
  has_timestamps : Bool := false
  check_count : Nat := 0
  item_count : Nat := 0
  running : Bool := false
  started : Int := 0
  cachedDoc : Option FeedDoc := none
  parsed : Option FeedDoc := none
  archive : List Update := []
  updatesDeque : List Update := []
deriving DecidableEq, Repr

/-- `Feed.generate_random_interval`: `random.randint(minimum or
default_minimum, max_update_interval)`, where a `ValueError` (lower bound
above upper bound) yields `max_update_interval`.  Note Python's `or` also
replaces a zero `minimum` by the default. -/
def generate_random_interval (rand : Int → Int → Int) (minimum : Option Int) : Int :=
  let defaultMinimum := max min_update_interval (max_update_interval / 2)
  let lo := match minimum with
            | some m => if m = 0 then defaultMinimum else m
            | none => defaultMinimum
  if lo ≤ max_update_interval then rand lo max_update_interval
  else max_update_interval

/-- The randint contract for the random oracle. -/
def RandOk (rand : Int → Int → Int) : Prop :=
  ∀ lo hi : Int, lo ≤ hi → lo ≤ rand lo hi ∧ rand lo hi ≤ hi

/-- `Feed.__init__`. -/
def mkFeed (rand : Int → Int → Int) (url : String) (title : Option String := none)
    (started : Int := 0) : Feed :=
  { url := url
    title := title
    random_interval := generate_random_interval rand none
    started := started }

/-- `sorted(l, reverse=True)`: descending sort. -/
def sortDesc (l : List Int) : List Int :=
  List.insertionSort (fun a b => b ≤ a) l

/-- The accumulation loop of `Feed.item_interval`: starting from `active`,
add up the consecutive differences over the remaining timestamps. -/
def sumGaps : Int → List Int → Int
  | _, [] => 0
  | a, t :: ts => (a - t) + sumGaps t ts

/-- `Feed.item_interval`.  When the feed is failed or has no provided
timestamps, the default is returned; otherwise the most recent
`window` timestamps are summed pairwise and divided by
`len(timestamps) + 1` (after the `pop(0)`); the `pop(0)` on an empty list
raises `IndexError`.  Division of a timedelta by an int floors, and
`seconds_in_timedelta` drops sub-second parts, which for the non-negative
delta produced by the descending sort is integer floor division. -/
def item_interval (f : Feed) : Except PyError Int :=
  if f.failed || !f.has_timestamps then .ok default_update_interval
  else
    match (sortDesc f.timestamps).take window with
    | [] => .error .indexError
    | active :: rest =>
      let interval := sumGaps active rest / (rest.length + 1)
      if interval > 0 then .ok interval else .ok default_update_interval

/-- `Feed.update_interval` (in seconds): clamp below by
`min_update_interval`; beyond `max_update_interval` use the per-feed
`random_interval`. -/
def update_interval (f : Feed) : Except PyError Int :=
  match item_interval f with
  | .error e => .error e
  | .ok seconds =>
    if seconds < min_update_interval then .ok min_update_interval
    else if seconds > max_update_interval then .ok f.random_interval
    else .ok seconds

/-- The trailing `self.timestamps = sorted(self.timestamps,
reverse=True)[:self.window]` of `Feed.update_timestamps`. -/
def trimTimestamps (f : Feed) : Feed :=
  { f with timestamps := (sortDesc f.timestamps).take window }

/-- `Feed.update_timestamps(items)`.  Returns the state at completion (or at
the raise point) together with the raised exception, if any. -/
def update_timestamps (rand : Int → Int → Int) (f : Feed) (items : List Item)
    (now : Int) : Feed × Option PyError :=
  let timestamps := items.filterMap (fun it => it.timestamp)
  if timestamps ≠ [] then
    (trimTimestamps { f with
        timestamps := f.timestamps ++ timestamps,
        random_interval := generate_random_interval rand none }, none)
  else if !f.failed then
    match item_interval f with
    | .error e => (f, some e)
    | .ok ii =>
      if ii < max_update_interval then
        match update_interval f with
        | .error e => (f, some e)
        | .ok current =>
          let f1 := { f with timestamps := now :: f.timestamps }
          match update_interval f1 with
          | .error e => (f1, some e)
          | .ok afterIv =>
            if afterIv < current then (trimTimestamps f, none)
            else (trimTimestamps f1, none)
      else if ii > max_update_interval then
        (trimTimestamps { f with
            random_interval :=
              generate_random_interval rand (some (f.random_interval + 1)) }, none)
      else (trimTimestamps f, none)
  else (trimTimestamps f, none)

/-- `Feed.parse` composed with `Feed.download`: a download error marks the
feed failed and yields no parsed document; a 200 stores the new body in the
cache; a 304 (or other success) re-parses the cached payload (treated as
empty when no cache exists). -/
def Feed.parseStep (f : Feed) (r : FetchResult) : Feed × Option FeedDoc :=
  match r with
  | .err => ({ f with failed := true }, none)
  | .ok doc => ({ f with failed := false, cachedDoc := some doc }, some doc)
  | .notModified => ({ f with failed := false }, some (f.cachedDoc.getD {}))

/-- Total order used by `sorted(new_items, key=attrgetter('timestamp'),
reverse=True)`: optional instants with `None` at the bottom (Python 2
compares `None` below every instant). -/
def optLe : Option Int → Option Int → Bool
  | none, _ => true
  | some _, none => false
  | some a, some b => a ≤ b

/-- Descending sort of items by the `timestamp` key. -/
def sortItemsDesc (l : List Item) : List Item :=
  List.insertionSort (fun x y => optLe y.timestamp x.timestamp = true) l

/-- `Feed.process_feed` (including the `__iter__`/`next` traversal that sets
`has_timestamps`, and the `deque(maxlen=1000).extendleft` which places the
new fingerprints at the front and evicts from the rear): returns the updated
state and the ordered list of new items. -/
def process_feed (f : Feed) (r : FetchResult) (now : Int) : Feed × List Item :=
  let step := f.parseStep r
  let f1 : Feed := { step.1 with parsed := step.2 }
  let entries := match step.2 with
                 | some doc => doc.entries
                 | none => []
  let allItems := entries.map (fun e => mkItem e now)
  let f2 : Feed := { f1 with
    has_timestamps := f1.has_timestamps || allItems.any (fun it => it.timestamp_provided) }
  let newItems := allItems.filter (fun it => !(f2.fingerprints.contains it.fingerprint))
  let f3 : Feed := { f2 with
    fingerprints := (newItems.map (fun it => it.fingerprint) ++ f2.fingerprints).take fingerprintCap,
    last_checked := some now,
    check_count := f2.check_count + 1 }
  (f3, if f3.has_timestamps then sortItemsDesc newItems else newItems.reverse)

/-- `Feed.build_update` (the `uuid4` value is not modelled; `self.running`
is never set anywhere in the repository, so the timestamp is `started`
unless `running` holds).  Python's `or` makes an empty `self.title` fall
back to the parsed feed title. -/
def build_update (f : Feed) (newItems : List Item) (now : Int) : Feed × Update :=
  let doc := f.parsed.getD {}
  let items := if f.initial_check then newItems.take initial_limit else newItems
  let f1 : Feed := { f with item_count := f.item_count + items.length }
  (f1,
   { timestamp := if f.running then now else f.started
     feed := { title := if pyStr f.title ≠ "" then pyStr f.title else pyStr doc.feedTitle
               description := pyStr doc.feedDescription
               web_url := pyStr doc.feedLink
               feed_url := f.url }
     initial_check := f.initial_check
     feed_items := items.map (fun it => it.info) })

/-- `Index.__init__(self, output, strict, hours=4)`: two required positional
parameters besides `self`, one defaulted. -/
def indexInitRequiredArgs : Nat := 2

/-- Defaulted parameters of `Index.__init__` (`hours=4`). -/
def indexInitOptionalArgs : Nat := 1

/-- `Feed.write_update` passes exactly one positional argument (`output`)
when constructing `Index`. -/
def writeUpdateIndexCallArgs : Nat := 1

/-- The `index = Index(output)` call inside `Feed.write_update`. -/
def writeUpdateIndexCall : Option PyError :=
  pyCall indexInitRequiredArgs indexInitOptionalArgs writeUpdateIndexCallArgs

/-- `Feed.write_update`: the update is inserted at the front of the day's
JSON archive and the file rewritten, then appended to the `updates` deque,
then `Index(output)` is constructed — which raises on an arity mismatch
before `write_archive`/`write_index` run. -/
def write_update (f : Feed) (u : Update) : Feed × Option PyError :=
  let f1 : Feed := { f with archive := u :: f.archive }
  let f2 : Feed := { f1 with updatesDeque := (u :: f1.updatesDeque).take updatesCap }
  match writeUpdateIndexCall with
  | some e => (f2, some e)
  | none => (f2, none)

/-- `Feed.check(output)`.  Returns the state at completion (or at the raise
point) and either the raised exception or the returned value; the function
body has no `return` statement on the success path and `return None` on the
failed path, so a normal completion always returns `none`. -/
def check (rand : Int → Int → Int) (f : Feed) (r : FetchResult) (now : Int) :
    Feed × Except PyError (Option Update) :=
  let step := process_feed f r now
  let f1 := step.1
  let newItems := step.2
  if f1.failed then (f1, .ok none)
  else
    match update_timestamps rand f1 newItems now with
    | (f2, some e) => (f2, .error e)
    | (f2, none) =>
      if newItems.isEmpty then ({ f2 with initial_check := false }, .ok none)
      else
        let built := build_update f2 newItems now
        match write_update built.1 built.2 with
        | (f4, some e) => (f4, .error e)
        | (f4, none) => ({ f4 with initial_check := false }, .ok none)

/-- `Feed.check` signature `def check(self, output)`: one required
positional parameter besides `self`, none defaulted. -/
def feedCheckRequiredArgs : Nat := 1

/-- Defaulted parameters of `Feed.check`: none. -/
def feedCheckOptionalArgs : Nat := 0

/-- The engine loop in `main` invokes `active_feed.check(args.output,
args.skip_initial, json_exists)`: three positional arguments. -/
def mainLoopCheckArgCount : Nat := 3

/-- The `check` invocation performed by the engine loop: the Python call
protocol is applied to the signature before the body can run. -/
def mainInvokeCheck (rand : Int → Int → Int) (f : Feed) (r : FetchResult)
    (now : Int) : Except PyError (Feed × Option Update) :=
  match pyCall feedCheckRequiredArgs feedCheckOptionalArgs mainLoopCheckArgCount with
  | some e => .error e
  | none =>
    match check rand f r now with
    | (f1, .ok u) => .ok (f1, u)
    | (_, .error e) => .error e

/-- `timestamps` sorted descending. -/
def SortedDesc (l : List Int) : Prop := l.Sorted (fun a b => b ≤ a)

instance : IsTotal Int (fun a b => b ≤ a) := ⟨fun a b => le_total b a⟩

instance : IsTrans Int (fun a b => b ≤ a) := ⟨fun _ _ _ h1 h2 => le_trans h2 h1⟩

instance : IsAntisymm Int (fun a b => b ≤ a) := ⟨fun _ _ h1 h2 => le_antisymm h2 h1⟩

/-- A concrete random oracle: always return the lower bound. -/
def rand0 : Int → Int → Int := fun lo _ => lo

/-- The provided date candidates of an entry, in scan order. -/
def presentDates (e : Entry) : List Int :=
  [e.published_parsed, e.updated_parsed, e.created_parsed].filterMap id

/-- A "valid provided date" in the sense of claim C9: at or after 2000-01-01
and strictly before the fetch instant. -/
def validProvidedExists (e : Entry) (now : Int) : Bool :=
  (presentDates e).any (fun v => decide (y2000 ≤ v) && decide (v < now))

/-- An entry whose only date field is 1990-01-01 (pre-2000). -/
def e9cx : Entry := { published_parsed := some 631152000 }

/-- An entry with no date fields at all. -/
def e9w : Entry := {}

instance {ε α : Type} [DecidableEq ε] [DecidableEq α] :
    DecidableEq (Except ε α) := fun x y =>
  match x, y with
  | .ok a, .ok b =>
    if h : a = b then .isTrue (congrArg Except.ok h)
    else .isFalse (fun hc => h (Except.ok.inj hc))
  | .ok _, .error _ => .isFalse (fun hc => Except.noConfusion hc)
  | .error _, .ok _ => .isFalse (fun hc => Except.noConfusion hc)
  | .error a, .error b =>
    if h : a = b then .isTrue (congrArg Except.error h)
    else .isFalse (fun hc => h (Except.error.inj hc))

/-- Definition following the specification's words for claim C3: the mean
gap between the most recent `min(W, len(timestamps))` timestamps, averaged
over `count − 1` gaps, with the fixed default when fewer than 2 timestamps
exist, the feed is failed, or `has_timestamps` is false. -/
def itemIntervalSpec (f : Feed) : Int :=
  if f.failed = true ∨ f.has_timestamps = false ∨ f.timestamps.length < 2 then
    default_update_interval
  else
    let ts := (sortDesc f.timestamps).take window
    (ts.head?.getD 0 - ts.getLast?.getD 0) / ((ts.length : Int) - 1)

/-- A live feed holding exactly the two timestamps 7200 and 0. -/
def f3cx : Feed :=
  { url := "c3", random_interval := 1800, has_timestamps := true,
    timestamps := [7200, 0] }

/-- A live feed with timestamps 7200 and 0 and `has_timestamps` true. -/
def f3w : Feed :=
  { url := "c3w", random_interval := 1800, has_timestamps := true,
    timestamps := [7200, 0] }

/-- A feed whose payload cache holds one entry that has never been seen. -/
def f6cx : Feed :=
  { url := "c6", random_interval := 1800,
    cachedDoc := some { entries := [{ guid := some "A" }] } }

/-- The one-entry scenario of claim C1. -/
def scenEntry : Entry :=
  { guid := some "A", title := some "T", link := some "http://x/1",
    published_parsed := some 1000000000 }

/-- The fetched body of the C1 scenario. -/
def scenDoc : FeedDoc := { entries := [scenEntry] }

/-- A freshly constructed feed for the C1 scenario. -/
def scenFeed : Feed := mkFeed rand0 "http://x/feed"

/-- A fresh feed for the C2 scenario. -/
def c2Feed : Feed := mkFeed rand0 "http://c2/feed"

/-- A one-entry body whose entry carries a real timestamp. -/
def c2Doc : FeedDoc :=
  { entries := [{ guid := some "B", published_parsed := some 1000000005 }] }

/-- A concrete feed exercising the jitter path of claim C4. -/
def f4w : Feed := { url := "c4", random_interval := 1800 }

/-- A live feed with two close timestamps, due for a virtual timestamp. -/
def f5w : Feed :=
  { url := "c5", random_interval := 1800, has_timestamps := true,
    timestamps := [1000000900, 1000000000] }

/-- The bounded-state invariant of claim C7: timestamps sorted descending
with length at most `window`, fingerprints within the deque capacity. -/
def FeedInv (f : Feed) : Prop :=
  SortedDesc f.timestamps ∧ f.timestamps.length ≤ window ∧
    f.fingerprints.length ≤ fingerprintCap

instance : DecidableRel (fun a b : Int => b ≤ a) := fun a b =>
  inferInstanceAs (Decidable (b ≤ a))

instance (l : List Int) : Decidable (SortedDesc l) :=
  inferInstanceAs (Decidable (l.Pairwise (fun a b => b ≤ a)))

/-- A concrete bounded state for the C7 witness. -/
def f7w : Feed :=
  { url := "c7", random_interval := 1800, has_timestamps := true,
    timestamps := [5, 3], fingerprints := [.guid "a"] }

/-- One thousand distinct fingerprints, filling the deque to capacity. -/
def fps1000 : List Fingerprint :=
  (List.range 1000).map (fun n => .guid ("g" ++ toString n))

/-- A never-seen entry. -/
def e8New : Entry := { guid := some "x" }

/-- An entry whose fingerprint is the oldest stored one. -/
def e8Old : Entry := { guid := some "g999" }

/-- A two-entry body: one new entry plus one already-seen entry whose
fingerprint sits at the eviction end of the full store. -/
def doc8 : FeedDoc := { entries := [e8New, e8Old] }

/-- A feed whose fingerprint store is at capacity. -/
def f8cx : Feed := { url := "c8", random_interval := 1800, fingerprints := fps1000 }

/-- A fresh feed and one-entry body for the C8 witness. -/
def f8w : Feed := mkFeed rand0 "http://c8w/feed"

/-- The C8 witness body. -/
def doc8w : FeedDoc := { entries := [{ guid := some "W" }] }

/-- The fingerprints inserted by one `process_feed` run, in feed order:
the fingerprints of the entries served by this fetch that are absent from
the current store (the filter in `process_feed` runs against the store as
it stood before the insertion). -/
def new_fingerprints (f : Feed) (r : FetchResult) (now : Int) : List Fingerprint :=
  let entries := match (f.parseStep r).2 with
                 | some doc => doc.entries
                 | none => []
  ((entries.map (fun e => mkItem e now)).filter
    (fun it => !(f.fingerprints.contains it.fingerprint))).map
    (fun it => it.fingerprint)

/-! ### Theorems -/

/-! ### Sorting infrastructure -/

theorem sortedDesc_sortDesc (l : List Int) : SortedDesc (sortDesc l) :=
  List.sorted_insertionSort _ l

theorem sortDesc_perm (l : List Int) : (sortDesc l).Perm l :=
  List.perm_insertionSort _ l

theorem sortDesc_eq_of_sorted {l : List Int} (h : SortedDesc l) : sortDesc l = l :=
  List.eq_of_perm_of_sorted (sortDesc_perm l) (sortedDesc_sortDesc l) h

theorem SortedDesc.take {l : List Int} (h : SortedDesc l) (n : Nat) :
    SortedDesc (l.take n) :=
  List.Pairwise.sublist (List.take_sublist n l) h

theorem sortDesc_eq_nil_iff {l : List Int} : sortDesc l = [] ↔ l = [] := by
  constructor
  · intro h
    have := (sortDesc_perm l).length_eq
    simp [h] at this
    exact List.eq_nil_of_length_eq_zero this.symm
  · intro h; subst h; rfl

theorem take_window_eq_nil_iff {l : List Int} : l.take window = [] ↔ l = [] := by
  cases l <;> simp [window]

/-! ### Interval helper lemmas -/

theorem generate_random_interval_none_bounds {rand : Int → Int → Int}
    (hr : RandOk rand) :
    1800 ≤ generate_random_interval rand none ∧
      generate_random_interval rand none ≤ 3600 := by
  have h := hr 1800 3600 (by norm_num)
  simp only [generate_random_interval, min_update_interval, max_update_interval]
  norm_num
  exact h

theorem generate_random_interval_ratchet {rand : Int → Int → Int}
    (hr : RandOk rand) (ri : Int) (hle : ri ≤ max_update_interval) :
    ri ≤ generate_random_interval rand (some (ri + 1)) ∧
      generate_random_interval rand (some (ri + 1)) ≤ max_update_interval ∧
      (ri < max_update_interval →
        ri < generate_random_interval rand (some (ri + 1))) := by
  simp only [generate_random_interval, min_update_interval, max_update_interval] at *
  by_cases h0 : ri + 1 = 0
  · have hri : ri = -1 := by omega
    subst hri
    simp only [h0]
    norm_num
    have h := hr 1800 3600 (by norm_num)
    exact ⟨by omega, h.2, by omega⟩
  · simp only [if_neg h0]
    by_cases hub : ri + 1 ≤ 3600
    · simp only [if_pos hub]
      have h := hr (ri + 1) 3600 hub
      exact ⟨by omega, h.2, fun _ => by omega⟩
    · simp only [if_neg hub]
      exact ⟨hle, le_refl _, fun h => absurd h (by omega)⟩

theorem item_interval_random_irrelevant (f : Feed) (x : Int) :
    item_interval { f with random_interval := x } = item_interval f := rfl

theorem item_interval_trim (f : Feed) :
    item_interval (trimTimestamps f) = item_interval f := by
  simp only [item_interval, trimTimestamps]
  have h1 : sortDesc ((sortDesc f.timestamps).take window) =
      (sortDesc f.timestamps).take window :=
    sortDesc_eq_of_sorted ((sortedDesc_sortDesc f.timestamps).take window)
  rw [h1, List.take_take, Nat.min_self]

theorem trimTimestamps_random_interval (f : Feed) :
    (trimTimestamps f).random_interval = f.random_interval := rfl

theorem update_interval_trim (f : Feed) :
    update_interval (trimTimestamps f) = update_interval f := by
  simp only [update_interval, item_interval_trim, trimTimestamps_random_interval]

theorem item_interval_isOk_of_ne_nil (f : Feed) (h : f.timestamps ≠ []) :
    ∃ v, item_interval f = .ok v := by
  unfold item_interval
  by_cases hc : (f.failed || !f.has_timestamps) = true
  · simp [hc]
  · have h2 : (sortDesc f.timestamps).take window ≠ [] := by
      intro hn
      exact h (sortDesc_eq_nil_iff.mp (take_window_eq_nil_iff.mp hn))
    rcases hl : (sortDesc f.timestamps).take window with _ | ⟨active, rest⟩
    · exact absurd hl h2
    · by_cases hd : sumGaps active rest / ((rest.length : Int) + 1) > 0 <;>
        simp [hc, hl, hd]

theorem item_interval_error_cases (f : Feed) (e : PyError)
    (h : item_interval f = .error e) :
    e = .indexError ∧ f.failed = false ∧ f.has_timestamps = true ∧
      f.timestamps = [] := by
  by_cases hn : f.timestamps = []
  · simp only [item_interval] at h
    by_cases hf : f.failed = true
    · simp [hf] at h
    · simp only [Bool.not_eq_true] at hf
      by_cases ht : f.has_timestamps = true
      · simp only [hf, ht] at h
        rw [hn] at h
        simp only [sortDesc] at h
        simp [List.insertionSort, window] at h
        exact ⟨h.symm, hf, ht, hn⟩
      · simp only [Bool.not_eq_true] at ht
        simp [hf, ht] at h
  · obtain ⟨v, hv⟩ := item_interval_isOk_of_ne_nil f hn
    rw [hv] at h
    exact absurd h (by simp)

theorem update_interval_isOk_of_ne_nil (f : Feed) (h : f.timestamps ≠ []) :
    ∃ v, update_interval f = .ok v := by
  obtain ⟨v, hv⟩ := item_interval_isOk_of_ne_nil f h
  simp only [update_interval, hv]
  split <;> try exact ⟨_, rfl⟩
  split <;> exact ⟨_, rfl⟩

theorem update_interval_of_ok {f : Feed} {s : Int}
    (hs : item_interval f = .ok s) :
    update_interval f =
      (if s < min_update_interval then .ok min_update_interval
       else if s > max_update_interval then .ok f.random_interval
       else .ok s) := by
  unfold update_interval
  rw [hs]

/-- The telescoping sum of consecutive gaps. -/
theorem sumGaps_eq (a : Int) (l : List Int) :
    sumGaps a l = a - (a :: l).getLast (by simp) := by
  induction l generalizing a with
  | nil => simp [sumGaps]
  | cons t ts ih =>
    have hgl : (a :: t :: ts).getLast (by simp) = (t :: ts).getLast (by simp) :=
      List.getLast_cons (by simp)
    simp only [sumGaps, ih t, hgl]
    omega

/-! ### Frame lemmas: which state fields each operation leaves untouched -/

theorem update_timestamps_frame (rand : Int → Int → Int) (f : Feed)
    (items : List Item) (now : Int) :
    (update_timestamps rand f items now).1.fingerprints = f.fingerprints ∧
    (update_timestamps rand f items now).1.cachedDoc = f.cachedDoc ∧
    (update_timestamps rand f items now).1.check_count = f.check_count ∧
    (update_timestamps rand f items now).1.item_count = f.item_count ∧
    (update_timestamps rand f items now).1.archive = f.archive ∧
    (update_timestamps rand f items now).1.failed = f.failed ∧
    (update_timestamps rand f items now).1.has_timestamps = f.has_timestamps ∧
    (update_timestamps rand f items now).1.initial_check = f.initial_check ∧
    (update_timestamps rand f items now).1.parsed = f.parsed ∧
    (update_timestamps rand f items now).1.last_checked = f.last_checked := by
  unfold update_timestamps
  dsimp only
  repeat' split <;>
    try exact ⟨rfl, rfl, rfl, rfl, rfl, rfl, rfl, rfl, rfl, rfl⟩

theorem write_update_eq (g : Feed) (u : Update) :
    write_update g u =
      ({ g with archive := u :: g.archive,
                updatesDeque := (u :: g.updatesDeque).take updatesCap },
       some .typeError) := rfl

theorem build_update_fst (f : Feed) (l : List Item) (now : Int) :
    (build_update f l now).1 =
      { f with item_count := f.item_count +
          (if f.initial_check then l.take initial_limit else l).length } := rfl

theorem check_frame (rand : Int → Int → Int) (f : Feed) (r : FetchResult)
    (now : Int) :
    (check rand f r now).1.fingerprints = (process_feed f r now).1.fingerprints ∧
    (check rand f r now).1.cachedDoc = (process_feed f r now).1.cachedDoc ∧
    (check rand f r now).1.check_count = (process_feed f r now).1.check_count ∧
    (check rand f r now).1.last_checked = (process_feed f r now).1.last_checked ∧
    (check rand f r now).1.failed = (process_feed f r now).1.failed ∧
    (check rand f r now).1.has_timestamps = (process_feed f r now).1.has_timestamps := by
  unfold check
  dsimp only
  split
  · exact ⟨rfl, rfl, rfl, rfl, rfl, rfl⟩
  · split
    · rename_i f2 e heq
      have hf := update_timestamps_frame rand (process_feed f r now).1
        (process_feed f r now).2 now
      rw [heq] at hf
      exact ⟨hf.1, hf.2.1, hf.2.2.1, hf.2.2.2.2.2.2.2.2.2, hf.2.2.2.2.2.1,
             hf.2.2.2.2.2.2.1⟩
    · rename_i f2 heq
      have hf := update_timestamps_frame rand (process_feed f r now).1
        (process_feed f r now).2 now
      rw [heq] at hf
      split
      · exact ⟨hf.1, hf.2.1, hf.2.2.1, hf.2.2.2.2.2.2.2.2.2, hf.2.2.2.2.2.1,
               hf.2.2.2.2.2.2.1⟩
      · rw [build_update_fst, write_update_eq]
        exact ⟨hf.1, hf.2.1, hf.2.2.1, hf.2.2.2.2.2.2.2.2.2, hf.2.2.2.2.2.1,
               hf.2.2.2.2.2.2.1⟩

theorem process_feed_frame (f : Feed) (r : FetchResult) (now : Int) :
    (process_feed f r now).1.timestamps = f.timestamps ∧
    (process_feed f r now).1.random_interval = f.random_interval ∧
    (process_feed f r now).1.archive = f.archive ∧
    (process_feed f r now).1.item_count = f.item_count ∧
    (process_feed f r now).1.initial_check = f.initial_check ∧
    (process_feed f r now).1.check_count = f.check_count + 1 ∧
    (process_feed f r now).1.last_checked = some now := by
  cases r <;> exact ⟨rfl, rfl, rfl, rfl, rfl, rfl, rfl⟩

theorem process_feed_fingerprints (f : Feed) (r : FetchResult) (now : Int) :
    ∃ newFps, (process_feed f r now).1.fingerprints =
      (newFps ++ f.fingerprints).take fingerprintCap := by
  cases r <;> exact ⟨_, rfl⟩

/-- The fingerprint store after `process_feed` is the capped concatenation
of the inserted fingerprints (in feed order) with the previous store. -/
theorem process_feed_fingerprints_eq (f : Feed) (r : FetchResult) (now : Int) :
    (process_feed f r now).1.fingerprints =
      (new_fingerprints f r now ++ f.fingerprints).take fingerprintCap := by
  cases r <;> rfl

/-! ### Concrete material shared by the claim theorems -/

theorem rand0_ok : RandOk rand0 := fun lo _ h => ⟨le_refl lo, h⟩

/-! ### Claim C10 -/

/-- Claim C10: the engine loop can never complete a single feed check —
`main` invokes `active_feed.check(args.output, args.skip_initial,
json_exists)` with three positional arguments while `Feed.check` accepts
only one besides `self`, so every `check` invocation from the loop raises
`TypeError` before the body runs. -/
theorem C10_main_check_arity :
    feedCheckRequiredArgs = 1 ∧ mainLoopCheckArgCount = 3 ∧
    pyCall feedCheckRequiredArgs feedCheckOptionalArgs mainLoopCheckArgCount =
      some PyError.typeError ∧
    (∀ (rand : Int → Int → Int) (f : Feed) (r : FetchResult) (now : Int),
      mainInvokeCheck rand f r now = .error PyError.typeError) :=
  ⟨rfl, rfl, rfl, fun _ _ _ _ => rfl⟩

/-! ### Claim C9 -/

/-- Claim C9 fails: for an entry whose only provided date is pre-2000, no
valid provided date exists, yet the resolved timestamp is `None` — it does
not fall back to `now` as the claim's "exactly when" requires. -/
theorem C9_counterexample :
    validProvidedExists e9cx 1600000000 = false ∧
    (mkItem e9cx 1600000000).timestamp = none ∧
    (mkItem e9cx 1600000000).timestamp ≠ some 1600000000 := by decide

theorem resolveTimestamp_eq_find (created : Int) (h : y2000 ≤ created)
    (l : List (Option Int)) :
    resolveTimestamp created l =
      match (l.filterMap id).find? (fun v => decide (v < created)) with
      | none => some created
      | some v => if v < y2000 then none else some v := by
  induction l with
  | nil => rfl
  | cons o rest ih =>
    cases o with
    | none => simpa [resolveTimestamp] using ih
    | some v =>
      by_cases h1 : v < y2000
      · have h2 : v < created := lt_of_lt_of_le h1 h
        simp [resolveTimestamp, h1, h2, List.find?]
      · by_cases h2 : v < created
        · simp [resolveTimestamp, h1, h2, List.find?]
        · simp only [resolveTimestamp, if_neg h1, if_neg h2,
            List.filterMap_cons_some, List.find?]
          rw [ih]
          simp [h2]

/-- Claim C9 (amended): the resolved timestamp is determined by the first
provided date below `now` — none present → fall back to `now`; that date
pre-2000 → `None` (no fallback); otherwise that date.  Consequently it
equals `now` exactly when every provided date is at or after `now`, and
`timestamp_provided` holds iff the resolved timestamp differs from `now`. -/
theorem C9_amended (e : Entry) (now : Int) (h : y2000 ≤ now) :
    ((mkItem e now).timestamp =
      match (presentDates e).find? (fun v => decide (v < now)) with
      | none => some now
      | some v => if v < y2000 then none else some v) ∧
    ((mkItem e now).timestamp = some now ↔ ∀ v ∈ presentDates e, now ≤ v) ∧
    ((mkItem e now).timestamp_provided = true ↔
      (mkItem e now).timestamp ≠ some now) := by
  have hmain := resolveTimestamp_eq_find now h
    [e.published_parsed, e.updated_parsed, e.created_parsed]
  have hts : (mkItem e now).timestamp =
      match (presentDates e).find? (fun v => decide (v < now)) with
      | none => some now
      | some v => if v < y2000 then none else some v := hmain
  refine ⟨hts, ?_, ?_⟩
  · rcases hf : (presentDates e).find? (fun v => decide (v < now)) with _ | v
    · rw [hts, hf]
      constructor
      · intro _ v hv
        have := List.find?_eq_none.mp hf v hv
        simpa using this
      · intro _; rfl
    · rw [hts, hf]
      dsimp only
      have hlt : v < now := by simpa using List.find?_some hf
      have hmem : v ∈ presentDates e := List.mem_of_find?_eq_some hf
      constructor
      · intro hc
        by_cases h1 : v < y2000
        · rw [if_pos h1] at hc; exact absurd hc (by simp)
        · rw [if_neg h1] at hc
          have : v = now := by simpa using hc
          omega
      · intro hall
        have := hall v hmem
        omega
  · simp [Item.timestamp_provided, mkItem]

/-- Witness for claim C9's amended theorem at a concrete input. -/
theorem C9_witness :
    (mkItem e9w 1000000000).timestamp = some 1000000000 ↔
      ∀ v ∈ presentDates e9w, 1000000000 ≤ v :=
  (C9_amended e9w 1000000000 (by decide)).2.1

/-! ### Claim C3 -/

/-- Claim C3 fails: with two stored timestamps 7200 and 0 the code divides
the total gap by the number of timestamps (2), returning 3600, not by
`count − 1` gaps (1), which would return 7200 as the claim states. -/
theorem C3_counterexample :
    item_interval f3cx = .ok 3600 ∧ itemIntervalSpec f3cx = 7200 ∧
      item_interval f3cx ≠ .ok (itemIntervalSpec f3cx) := by decide

/-- Claim C3 (amended): when the feed is failed or `has_timestamps` is
false, `item_interval` returns the fixed default of 3600 seconds; when the
feed is live but no timestamps are stored it raises `IndexError` (not the
default); otherwise it returns the total gap between newest and oldest of
the most recent `min(W, len(timestamps))` timestamps divided by their
*count* (not `count − 1`), with the default substituted when that mean is
not positive. -/
theorem C3_amended (f : Feed) :
    (f.failed = true ∨ f.has_timestamps = false →
      item_interval f = .ok default_update_interval) ∧
    (f.failed = false → f.has_timestamps = true → f.timestamps = [] →
      item_interval f = .error .indexError) ∧
    (f.failed = false → f.has_timestamps = true → f.timestamps ≠ [] →
      ∀ ts, ts = (sortDesc f.timestamps).take window →
        item_interval f =
          .ok (if 0 < (ts.head?.getD 0 - ts.getLast?.getD 0) / (ts.length : Int)
               then (ts.head?.getD 0 - ts.getLast?.getD 0) / (ts.length : Int)
               else default_update_interval)) := by
  refine ⟨?_, ?_, ?_⟩
  · intro h
    unfold item_interval
    rcases h with h | h <;> simp [h]
  · intro hf ht hn
    unfold item_interval
    simp only [hf, ht, hn]
    have : sortDesc ([] : List Int) = [] := rfl
    simp [this, window]
  · intro hf ht hn ts hts
    have h2 : ts ≠ [] := by
      rw [hts]
      intro hc
      exact hn (sortDesc_eq_nil_iff.mp (take_window_eq_nil_iff.mp hc))
    unfold item_interval
    rw [hf, ht]
    rw [if_neg (by simp)]
    rw [← hts]
    rcases hl : ts with _ | ⟨active, rest⟩
    · exact absurd hl h2
    · subst hl
      dsimp only
      rw [sumGaps_eq]
      have hlast : (active :: rest).getLast?.getD 0 =
          (active :: rest).getLast (by simp) := by
        rw [List.getLast?_eq_getLast (active :: rest) (by simp)]
        rfl
      simp only [List.head?_cons, Option.getD_some, hlast, List.length_cons]
      have hcast : ((rest.length + 1 : Nat) : Int) = (rest.length : Int) + 1 := by
        push_cast
        ring
      rw [hcast]
      split <;> rfl

/-- Witness for claim C3's amended theorem: the live-path formula evaluated
at two concrete timestamps. -/
theorem C3_witness :
    item_interval f3w =
      .ok (if 0 < (((sortDesc f3w.timestamps).take window).head?.getD 0 -
                   ((sortDesc f3w.timestamps).take window).getLast?.getD 0) /
                  (((sortDesc f3w.timestamps).take window).length : Int)
           then (((sortDesc f3w.timestamps).take window).head?.getD 0 -
                 ((sortDesc f3w.timestamps).take window).getLast?.getD 0) /
                (((sortDesc f3w.timestamps).take window).length : Int)
           else default_update_interval) :=
  (C3_amended f3w).2.2 rfl rfl (by decide) _ rfl

/-! ### Claim C6 -/

/-- Claim C6 fails in its "cached payload still served" part: on a failing
fetch, `parse` returns no document, so `process_feed` sees zero entries —
even though the cache holds an unseen entry that would have produced a new
item had it been served. -/
theorem C6_counterexample :
    (process_feed f6cx .err 1000000000).2 = [] ∧
    (f6cx.cachedDoc.getD {}).entries ≠ [] ∧
    ((f6cx.cachedDoc.getD {}).entries.map (fun e => e.fingerprint)).all
      (fun g => !f6cx.fingerprints.contains g) = true := by decide

/-- Claim C6 (amended): on every check whose fetch fails, `failed` is true
afterwards, the check returns `None` without raising, no update is emitted
(the archive is unchanged), the cached payload is retained but `process_feed`
receives zero entries from it, and the effective interval equals the
failed-path default of 3600 seconds. -/
theorem C6_amended (rand : Int → Int → Int) (f : Feed) (now : Int) :
    (check rand f .err now).1.failed = true ∧
    (check rand f .err now).2 = .ok none ∧
    (check rand f .err now).1.archive = f.archive ∧
    (check rand f .err now).1.cachedDoc = f.cachedDoc ∧
    (process_feed f .err now).2 = [] ∧
    update_interval (check rand f .err now).1 = .ok default_update_interval := by
  refine ⟨rfl, rfl, rfl, rfl, ?_, rfl⟩
  show (if ((process_feed f .err now).1.has_timestamps : Bool) = true
        then sortItemsDesc [] else List.reverse []) = []
  split <;> rfl

/-! ### Claim C1 -/

theorem check_snd_shape (rand : Int → Int → Int) (f : Feed) (r : FetchResult)
    (now : Int) :
    (check rand f r now).2 = .ok none ∨ ∃ e, (check rand f r now).2 = .error e := by
  unfold check
  dsimp only
  split
  · exact Or.inl rfl
  · split
    · exact Or.inr ⟨_, rfl⟩
    · split
      · exact Or.inl rfl
      · split
        · exact Or.inr ⟨_, rfl⟩
        · exact Or.inl rfl

/-- Claim C1 fails: in the one-entry scenario the first `check()` produces
and archives an `Update`, but raises `TypeError` instead of returning it. -/
theorem C1_counterexample :
    (check rand0 scenFeed (.ok scenDoc) 1000000000).2 = .error .typeError ∧
    (check rand0 scenFeed (.ok scenDoc) 1000000000).1.archive.length = 1 := by
  decide

/-- Claim C1 (amended): `check()` never returns an `Update` — every normal
completion returns `None`.  For the fresh one-entry scenario the first call
builds an `Update` with exactly one item tagged `initial_check`, appends it
to the archive and sets `item_count` to 1, and then raises `TypeError` from
`write_update`'s `Index` construction instead of completing. -/
theorem C1_amended :
    (∀ (rand : Int → Int → Int) (f : Feed) (r : FetchResult) (now : Int)
      (u : Update), (check rand f r now).2 ≠ .ok (some u)) ∧
    (check rand0 scenFeed (.ok scenDoc) 1000000000).2 = .error .typeError ∧
    ((check rand0 scenFeed (.ok scenDoc) 1000000000).1.archive.map
      (fun u => (u.feed_items.length, u.initial_check))) = [(1, true)] ∧
    (check rand0 scenFeed (.ok scenDoc) 1000000000).1.item_count = 1 := by
  refine ⟨?_, by decide, by decide, by decide⟩
  intro rand f r now u
  rcases check_snd_shape rand f r now with h | ⟨e, h⟩ <;> simp [h]

/-! ### Claim C2 -/

/-- Claim C2 fails in its "no Update is ever durably archived" part: the
JSON archive write happens before the `Index(output)` construction, so the
update IS archived even though the check then raises `TypeError`. -/
theorem C2_counterexample :
    (check rand0 c2Feed (.ok c2Doc) 1000000010).2 = .error .typeError ∧
    (check rand0 c2Feed (.ok c2Doc) 1000000010).1.archive.length = 1 := by
  decide

theorem sortItemsDesc_perm (l : List Item) : (sortItemsDesc l).Perm l :=
  List.perm_insertionSort _ l

theorem sortItemsDesc_eq_nil_iff (l : List Item) : sortItemsDesc l = [] ↔ l = [] := by
  constructor
  · intro h
    have := (sortItemsDesc_perm l).length_eq
    rw [h] at this
    exact List.eq_nil_of_length_eq_zero this.symm
  · intro h
    subst h
    rfl

/-- The new-item list produced by `process_feed` on a fresh 200 body,
written out explicitly. -/
theorem process_feed_snd_expr (f : Feed) (doc : FeedDoc) (now : Int) :
    (process_feed f (.ok doc) now).2 =
      (if (f.has_timestamps ||
            (doc.entries.map (fun e => mkItem e now)).any
              (fun it => it.timestamp_provided)) = true
       then sortItemsDesc ((doc.entries.map (fun e => mkItem e now)).filter
              (fun it => !(f.fingerprints.contains it.fingerprint)))
       else ((doc.entries.map (fun e => mkItem e now)).filter
              (fun it => !(f.fingerprints.contains it.fingerprint))).reverse) := rfl

theorem process_feed_snd_mem (f : Feed) (doc : FeedDoc) (now : Int) :
    ∀ it ∈ (process_feed f (.ok doc) now).2, ∃ e ∈ doc.entries, it = mkItem e now := by
  intro it hit
  rw [process_feed_snd_expr] at hit
  have hit2 : it ∈ (doc.entries.map (fun e => mkItem e now)).filter
      (fun x => !(f.fingerprints.contains x.fingerprint)) := by
    revert hit
    split <;> intro hit
    · exact ((sortItemsDesc_perm _).mem_iff).mp hit
    · exact List.mem_reverse.mp hit
  obtain ⟨e, he, heq⟩ := List.mem_map.mp (List.mem_filter.mp hit2).1
  exact ⟨e, he, heq.symm⟩

theorem process_feed_snd_ne_nil (f : Feed) (doc : FeedDoc) (now : Int)
    (h : ∃ e ∈ doc.entries, f.fingerprints.contains e.fingerprint = false) :
    (process_feed f (.ok doc) now).2 ≠ [] := by
  obtain ⟨e0, he0, hfp0⟩ := h
  have hmemf : mkItem e0 now ∈ (doc.entries.map (fun e => mkItem e now)).filter
      (fun x => !(f.fingerprints.contains x.fingerprint)) :=
    List.mem_filter.mpr ⟨List.mem_map_of_mem _ he0, by
      show (!(f.fingerprints.contains (mkItem e0 now).fingerprint)) = true
      rw [show (mkItem e0 now).fingerprint = e0.fingerprint from rfl, hfp0]
      rfl⟩
  have hne : (doc.entries.map (fun e => mkItem e now)).filter
      (fun x => !(f.fingerprints.contains x.fingerprint)) ≠ [] := by
    intro hc
    rw [hc] at hmemf
    exact List.not_mem_nil _ hmemf
  rw [process_feed_snd_expr]
  split
  · intro hc
    exact hne ((sortItemsDesc_eq_nil_iff _).mp hc)
  · intro hc
    exact hne (by simpa using hc)

/-- `update_timestamps` on items that do carry real timestamps: the
timestamps are appended and the jitter reset, and nothing is raised. -/
theorem update_timestamps_real (rand : Int → Int → Int) (f : Feed)
    (items : List Item) (now : Int)
    (h : items.filterMap (fun it => it.timestamp) ≠ []) :
    update_timestamps rand f items now =
      (trimTimestamps { f with
        timestamps := f.timestamps ++ items.filterMap (fun it => it.timestamp),
        random_interval := generate_random_interval rand none }, none) := by
  unfold update_timestamps
  dsimp only
  rw [if_pos h]

/-- When `update_timestamps` raises, the exception is the empty-list
`IndexError` from `item_interval` and the state is the one it was called
with. -/
theorem update_timestamps_error_eq (rand : Int → Int → Int) (f : Feed)
    (items : List Item) (now : Int) (g : Feed) (e : PyError)
    (h : update_timestamps rand f items now = (g, some e)) :
    e = .indexError ∧ g = f := by
  unfold update_timestamps at h
  dsimp only at h
  split at h
  · exact absurd h (by simp)
  · split at h
    · split at h
      · rename_i e2 heq
        simp only [Prod.mk.injEq, Option.some.injEq] at h
        have hcase := item_interval_error_cases f e2 heq
        exact ⟨h.2 ▸ hcase.1, h.1.symm⟩
      · rename_i ii heq
        split at h
        · split at h
          · rename_i e2 heq2
            rw [update_interval_of_ok heq] at heq2
            split at heq2
            · simp at heq2
            · split at heq2 <;> simp at heq2
          · rename_i cur heq2
            split at h
            · rename_i e2 heq3
              obtain ⟨v, hv⟩ := update_interval_isOk_of_ne_nil
                { f with timestamps := now :: f.timestamps } (by simp)
              rw [hv] at heq3
              exact absurd heq3 (by simp)
            · rename_i a heq3
              split at h <;> exact absurd h (by simp)
        · split at h
          · exact absurd h (by simp)
          · exact absurd h (by simp)
    · exact absurd h (by simp)

/-- Claim C2 (amended): every `check()` that finds new items raises an
exception before completing, and the post-emission step of clearing
`initial_check` is never reached.  In the normal case `write_update`
constructs `Index(output)` without the required `strict` argument of
`Index.__init__` and raises `TypeError` — after the `Update` has already
been appended to the JSON archive, so the `Update` IS durably archived
(only the HTML rendering never runs).  In the degenerate case where every
new item's resolved timestamp is `None` (only bogus pre-2000 dates) and no
timestamps are stored, the check instead raises the empty-list `IndexError`
inside `update_timestamps` and nothing is archived. -/
theorem C2_amended (rand : Int → Int → Int) (f : Feed) (doc : FeedDoc)
    (now : Int)
    (hnew : ∃ e ∈ doc.entries, f.fingerprints.contains e.fingerprint = false) :
    writeUpdateIndexCall = some .typeError ∧
    ((check rand f (.ok doc) now).2 = .error .typeError ∨
      (check rand f (.ok doc) now).2 = .error .indexError) ∧
    (check rand f (.ok doc) now).1.initial_check = f.initial_check ∧
    ((check rand f (.ok doc) now).2 = .error .typeError →
      ∃ u, (check rand f (.ok doc) now).1.archive = u :: f.archive) ∧
    ((check rand f (.ok doc) now).2 = .error .indexError →
      (check rand f (.ok doc) now).1.archive = f.archive) := by
  have hne := process_feed_snd_ne_nil f doc now hnew
  rcases hut : update_timestamps rand (process_feed f (.ok doc) now).1
      (process_feed f (.ok doc) now).2 now with ⟨f2, err⟩
  cases err with
  | some e =>
    obtain ⟨heidx, hgf⟩ :=
      update_timestamps_error_eq rand (process_feed f (.ok doc) now).1
        (process_feed f (.ok doc) now).2 now f2 e hut
    have hchk : check rand f (.ok doc) now = (f2, .error e) := by
      unfold check
      dsimp only
      rw [if_neg (by
        rw [show (process_feed f (.ok doc) now).1.failed = false from rfl]
        simp)]
      rw [hut]
    rw [hchk, heidx]
    refine ⟨rfl, Or.inr rfl, ?_, ?_, ?_⟩
    · have hx : f2.initial_check = f.initial_check := by
        rw [hgf]
        exact (process_feed_frame f (.ok doc) now).2.2.2.2.1
      exact hx
    · intro hcontra
      exact absurd hcontra (by simp)
    · intro _
      have hx : f2.archive = f.archive := by
        rw [hgf]
        exact (process_feed_frame f (.ok doc) now).2.2.1
      exact hx
  | none =>
    have hfr := update_timestamps_frame rand (process_feed f (.ok doc) now).1
      (process_feed f (.ok doc) now).2 now
    rw [hut] at hfr
    have harch2 : f2.archive = f.archive :=
      hfr.2.2.2.2.1.trans (by rfl)
    have hic2 : f2.initial_check = f.initial_check :=
      hfr.2.2.2.2.2.2.2.1.trans (by rfl)
    have hchk : check rand f (.ok doc) now =
        ({ (build_update f2 (process_feed f (.ok doc) now).2 now).1 with
            archive := (build_update f2 (process_feed f (.ok doc) now).2 now).2 ::
              (build_update f2 (process_feed f (.ok doc) now).2 now).1.archive,
            updatesDeque :=
              ((build_update f2 (process_feed f (.ok doc) now).2 now).2 ::
                (build_update f2 (process_feed f (.ok doc) now).2
                  now).1.updatesDeque).take updatesCap },
         .error .typeError) := by
      unfold check
      dsimp only
      rw [if_neg (by
        rw [show (process_feed f (.ok doc) now).1.failed = false from rfl]
        simp)]
      rw [hut]
      dsimp only
      rw [if_neg (by
        intro hc
        exact hne (List.isEmpty_iff.mp hc))]
      rw [write_update_eq]
    rw [hchk]
    refine ⟨rfl, Or.inl rfl, ?_, ?_, ?_⟩
    · show (build_update f2 (process_feed f (.ok doc) now).2 now).1.initial_check =
        f.initial_check
      rw [show (build_update f2 (process_feed f (.ok doc) now).2
            now).1.initial_check = f2.initial_check from rfl]
      exact hic2
    · intro _
      exact ⟨(build_update f2 (process_feed f (.ok doc) now).2 now).2, by
        show (build_update f2 (process_feed f (.ok doc) now).2 now).2 ::
            (build_update f2 (process_feed f (.ok doc) now).2 now).1.archive =
          (build_update f2 (process_feed f (.ok doc) now).2 now).2 :: f.archive
        rw [show (build_update f2 (process_feed f (.ok doc) now).2
              now).1.archive = f2.archive from rfl, harch2]⟩
    · intro hcontra
      exact absurd hcontra (by simp)

/-- Witness for claim C2's amended theorem at a concrete input. -/
theorem C2_witness :
    (check rand0 c2Feed (.ok c2Doc) 1000000010).1.initial_check =
      c2Feed.initial_check :=
  (C2_amended rand0 c2Feed c2Doc 1000000010
    (⟨c2Doc.entries.head (by decide), by decide⟩)).2.2.1

/-! ### Claim C4 -/

/-- Claim C4: the effective polling interval is always at least
`min_update_interval`; at most `max_update_interval` whenever the natural
item interval is at most the maximum; equal to the per-feed jitter
`random_interval` when the natural interval exceeds the maximum; the jitter
always lies in `[max/2, max]` (fresh draws included); and on a check whose
natural interval still exceeds the maximum with no new real timestamps the
jitter is re-drawn with a floor one second above its previous value, never
decreasing, strictly increasing while below the maximum, and bounded above
by the maximum. -/
theorem C4_interval_policy (rand : Int → Int → Int) (f : Feed) (s : Int)
    (hr : RandOk rand)
    (hlo : max_update_interval / 2 ≤ f.random_interval)
    (hhi : f.random_interval ≤ max_update_interval)
    (hs : item_interval f = .ok s) :
    (∀ v, update_interval f = .ok v → min_update_interval ≤ v) ∧
    (s ≤ max_update_interval →
      ∀ v, update_interval f = .ok v → v ≤ max_update_interval) ∧
    (max_update_interval < s → update_interval f = .ok f.random_interval) ∧
    (max_update_interval / 2 ≤ generate_random_interval rand none ∧
      generate_random_interval rand none ≤ max_update_interval) ∧
    (f.random_interval ≤
        generate_random_interval rand (some (f.random_interval + 1)) ∧
      generate_random_interval rand (some (f.random_interval + 1)) ≤
        max_update_interval ∧
      (f.random_interval < max_update_interval →
        f.random_interval <
          generate_random_interval rand (some (f.random_interval + 1)))) ∧
    (∀ items now, items.filterMap (fun it => it.timestamp) = [] →
      f.failed = false → max_update_interval < s →
      (update_timestamps rand f items now).1.random_interval =
        generate_random_interval rand (some (f.random_interval + 1))) := by
  have hui : update_interval f =
      (if s < min_update_interval then .ok min_update_interval
       else if s > max_update_interval then .ok f.random_interval
       else .ok s) := by
    unfold update_interval
    rw [hs]
  have hfresh := generate_random_interval_none_bounds hr
  have hratchet := generate_random_interval_ratchet hr f.random_interval hhi
  refine ⟨?_, ?_, ?_, ?_, hratchet, ?_⟩
  · intro v hv
    rw [hui] at hv
    split at hv
    · simp only [Except.ok.injEq] at hv
      omega
    · split at hv <;> simp only [Except.ok.injEq] at hv
      · rw [hv] at hlo
        simp only [min_update_interval, max_update_interval] at *
        omega
      · simp only [min_update_interval] at *
        omega
  · intro hsmax v hv
    rw [hui] at hv
    split at hv
    · simp only [Except.ok.injEq] at hv
      rw [← hv]
      simp [min_update_interval, max_update_interval]
    · split at hv <;> simp only [Except.ok.injEq] at hv
      · omega
      · omega
  · intro hsmax
    rw [hui]
    rw [if_neg (by simp only [min_update_interval, max_update_interval] at *; omega)]
    rw [if_pos (by omega)]
  · simpa [max_update_interval] using hfresh
  · intro items now hts hf hsmax
    unfold update_timestamps
    dsimp only
    rw [hts]
    rw [if_neg (by simp)]
    rw [hf]
    simp only [Bool.not_false, if_pos]
    rw [hs]
    dsimp only
    rw [if_neg (by omega), if_pos (by omega)]
    rfl

/-- Witness for claim C4's theorem at a concrete input. -/
theorem C4_witness :
    max_update_interval / 2 ≤ generate_random_interval rand0 none ∧
      generate_random_interval rand0 none ≤ max_update_interval :=
  (C4_interval_policy rand0 f4w 3600 rand0_ok (by decide) (by decide)
    (by decide)).2.2.2.1

/-! ### Claim C5 -/

/-- Claim C5: whenever `update_timestamps` runs with no real item
timestamps on a non-failed feed (with its jitter within the documented
bound), the effective interval after the call is at least its value
immediately before — the virtual-timestamp insertion may lengthen but never
shorten the interval. -/
theorem C5_virtual_timestamp_monotone (rand : Int → Int → Int) (f : Feed)
    (items : List Item) (now : Int)
    (hr : RandOk rand)
    (hts : items.filterMap (fun it => it.timestamp) = [])
    (hf : f.failed = false)
    (hri : f.random_interval ≤ max_update_interval)
    (before after : Int)
    (h1 : update_interval f = .ok before)
    (h2 : update_interval (update_timestamps rand f items now).1 = .ok after) :
    before ≤ after := by
  obtain ⟨s, hs⟩ : ∃ s, item_interval f = .ok s := by
    rcases hi : item_interval f with e | s
    · rw [update_interval, hi] at h1
      exact absurd h1 (by simp)
    · exact ⟨s, rfl⟩
  unfold update_timestamps at h2
  dsimp only at h2
  rw [hts] at h2
  rw [if_neg (by simp)] at h2
  rw [if_pos (show (!f.failed) = true by rw [hf]; rfl)] at h2
  rw [hs] at h2
  dsimp only at h2
  by_cases hcase1 : s < max_update_interval
  · rw [if_pos hcase1] at h2
    rw [h1] at h2
    dsimp only at h2
    obtain ⟨a1, ha1⟩ :=
      update_interval_isOk_of_ne_nil { f with timestamps := now :: f.timestamps }
        (by simp)
    rw [ha1] at h2
    dsimp only at h2
    by_cases hlt : a1 < before
    · rw [if_pos hlt] at h2
      dsimp only at h2
      rw [update_interval_trim, h1] at h2
      simp only [Except.ok.injEq] at h2
      omega
    · rw [if_neg hlt] at h2
      dsimp only at h2
      rw [update_interval_trim, ha1] at h2
      simp only [Except.ok.injEq] at h2
      omega
  · rw [if_neg hcase1] at h2
    by_cases hcase2 : s > max_update_interval
    · rw [if_pos hcase2] at h2
      dsimp only at h2
      have hbefore : before = f.random_interval := by
        rw [update_interval_of_ok hs] at h1
        rw [if_neg (by
              simp only [min_update_interval, max_update_interval] at *
              omega),
            if_pos hcase2] at h1
        simp only [Except.ok.injEq] at h1
        exact h1.symm
      set r2 := generate_random_interval rand (some (f.random_interval + 1))
        with hr2def
      have hii2 : item_interval
          (trimTimestamps { f with random_interval := r2 }) = .ok s := by
        rw [item_interval_trim, item_interval_random_irrelevant]
        exact hs
      rw [update_interval_of_ok hii2] at h2
      rw [if_neg (by
            simp only [min_update_interval, max_update_interval] at *
            omega),
          if_pos hcase2] at h2
      have hproj : (trimTimestamps
          { f with random_interval := r2 }).random_interval = r2 := rfl
      rw [hproj] at h2
      simp only [Except.ok.injEq] at h2
      have hrat := (generate_random_interval_ratchet hr f.random_interval hri).1
      rw [hbefore, ← h2]
      exact hrat
    · rw [if_neg hcase2] at h2
      dsimp only at h2
      rw [update_interval_trim, h1] at h2
      simp only [Except.ok.injEq] at h2
      omega

/-- Witness for claim C5's theorem at a concrete input. -/
theorem C5_witness : (900 : Int) ≤ 900 :=
  C5_virtual_timestamp_monotone rand0 f5w [] 1000001000 rand0_ok
    (by decide) (by decide) (by decide) 900 900 (by decide) (by decide)

/-! ### Claim C7 -/

theorem trim_inv (g : Feed) (hfp : g.fingerprints.length ≤ fingerprintCap) :
    FeedInv (trimTimestamps g) := by
  refine ⟨(sortedDesc_sortDesc _).take _, ?_, hfp⟩
  show ((sortDesc g.timestamps).take window).length ≤ window
  rw [List.length_take]
  exact min_le_left _ _

theorem process_feed_inv (f : Feed) (r : FetchResult) (now : Int)
    (h : FeedInv f) : FeedInv (process_feed f r now).1 := by
  obtain ⟨h1, h2, h3⟩ := h
  obtain ⟨hts, -, -, -, -, -, -⟩ := process_feed_frame f r now
  refine ⟨?_, ?_, ?_⟩
  · rw [hts]; exact h1
  · rw [hts]; exact h2
  · obtain ⟨newFps, hfp⟩ := process_feed_fingerprints f r now
    rw [hfp, List.length_take]
    exact min_le_left _ _

theorem update_timestamps_inv (rand : Int → Int → Int) (f : Feed)
    (items : List Item) (now : Int) (h : FeedInv f) :
    FeedInv (update_timestamps rand f items now).1 := by
  unfold update_timestamps
  dsimp only
  split
  · exact trim_inv _ h.2.2
  · split
    · split
      · exact h
      · rename_i ii heq
        split
        · split
          · rename_i e heq2
            rw [update_interval_of_ok heq] at heq2
            split at heq2
            · simp at heq2
            · split at heq2 <;> simp at heq2
          · split
            · rename_i e heq3
              obtain ⟨v, hv⟩ := update_interval_isOk_of_ne_nil
                { f with timestamps := now :: f.timestamps } (by simp)
              rw [hv] at heq3
              exact absurd heq3 (by simp)
            · split
              · exact trim_inv _ h.2.2
              · exact trim_inv _ h.2.2
        · split
          · exact trim_inv _ h.2.2
          · exact trim_inv _ h.2.2
    · exact trim_inv _ h.2.2

theorem check_inv (rand : Int → Int → Int) (f : Feed) (r : FetchResult)
    (now : Int) (h : FeedInv f) : FeedInv (check rand f r now).1 := by
  have hpf := process_feed_inv f r now h
  unfold check
  dsimp only
  split
  · exact hpf
  · split
    · rename_i f2 e heq
      have hinv2 := update_timestamps_inv rand (process_feed f r now).1
        (process_feed f r now).2 now hpf
      rw [heq] at hinv2
      exact hinv2
    · rename_i f2 heq
      have hinv2 := update_timestamps_inv rand (process_feed f r now).1
        (process_feed f r now).2 now hpf
      rw [heq] at hinv2
      split
      · exact ⟨hinv2.1, hinv2.2.1, hinv2.2.2⟩
      · rw [build_update_fst, write_update_eq]
        dsimp only
        exact ⟨hinv2.1, hinv2.2.1, hinv2.2.2⟩

/-- Claim C7: for every feed state satisfying the bounded-state invariant,
the invariant is preserved by `process_feed`, `update_timestamps` and
`check` (timestamps stay sorted descending with length ≤ W = 10, the
fingerprint store never exceeds F = 1000), and on every `process_feed` the
resulting store is exactly the inserted fingerprints (feed order, truncated
at capacity) followed by the first `capacity − inserted` entries of the
previous store: the survivors of the old store are its newest-first prefix,
so eviction removes precisely the oldest-inserted suffix once full. -/
theorem C7_bounded_state (rand : Int → Int → Int) (f : Feed) (r : FetchResult)
    (items : List Item) (now : Int) (h : FeedInv f) :
    FeedInv (process_feed f r now).1 ∧
    FeedInv (update_timestamps rand f items now).1 ∧
    FeedInv (check rand f r now).1 ∧
    (process_feed f r now).1.fingerprints =
      (new_fingerprints f r now).take fingerprintCap ++
        f.fingerprints.take
          (fingerprintCap - (new_fingerprints f r now).length) := by
  refine ⟨process_feed_inv f r now h, update_timestamps_inv rand f items now h,
    check_inv rand f r now h, ?_⟩
  rw [process_feed_fingerprints_eq, List.take_append_eq_append_take]

/-- Witness for claim C7's theorem at a concrete input. -/
theorem C7_witness : FeedInv (check rand0 f7w .err 1000).1 :=
  (C7_bounded_state rand0 f7w .err [] 1000
    ⟨by decide, by decide, by decide⟩).2.2.1

/-! ### Claim C8 -/

theorem contains_iff_mem_fp {l : List Fingerprint} {a : Fingerprint} :
    l.contains a = true ↔ a ∈ l := List.elem_iff

/-- Claim C8 fails at fingerprint capacity: the first check's insertion
evicts the oldest stored fingerprint, so the second check of the unchanged
payload re-discovers the evicted entry — one new item and one further
archived update. -/
theorem C8_counterexample :
    (process_feed (check rand0 f8cx (.ok doc8) 1000000000).1 .notModified
      1000000010).2.length = 1 ∧
    (check rand0 (check rand0 f8cx (.ok doc8) 1000000000).1 .notModified
      1000000010).1.archive.length =
      (check rand0 f8cx (.ok doc8) 1000000000).1.archive.length + 1 := by
  set_option maxRecDepth 100000 in decide

/-- The new-item list produced by `process_feed` on an HTTP 304 that serves
the cached payload, written out explicitly. -/
theorem process_feed_snd_expr_nm (f : Feed) (now : Int) :
    (process_feed f .notModified now).2 =
      (if (f.has_timestamps ||
            ((f.cachedDoc.getD {}).entries.map (fun e => mkItem e now)).any
              (fun it => it.timestamp_provided)) = true
       then sortItemsDesc (((f.cachedDoc.getD {}).entries.map
              (fun e => mkItem e now)).filter
              (fun it => !(f.fingerprints.contains it.fingerprint)))
       else (((f.cachedDoc.getD {}).entries.map
              (fun e => mkItem e now)).filter
              (fun it => !(f.fingerprints.contains it.fingerprint))).reverse) := rfl

/-- `check` on a cycle that finds no new items leaves the archive and the
item counter untouched. -/
theorem check_no_new (rand : Int → Int → Int) (f : Feed) (r : FetchResult)
    (now : Int) (h : (process_feed f r now).2 = []) :
    (check rand f r now).1.archive = f.archive ∧
    (check rand f r now).1.item_count = f.item_count := by
  obtain ⟨-, -, harch, hic, -, -, -⟩ := process_feed_frame f r now
  unfold check
  dsimp only
  split
  · exact ⟨harch, hic⟩
  · split
    · rename_i f2 e heq
      have hfr := update_timestamps_frame rand (process_feed f r now).1
        (process_feed f r now).2 now
      rw [heq] at hfr
      exact ⟨hfr.2.2.2.2.1.trans harch, hfr.2.2.2.1.trans hic⟩
    · rename_i f2 heq
      have hfr := update_timestamps_frame rand (process_feed f r now).1
        (process_feed f r now).2 now
      rw [heq] at hfr
      split
      · exact ⟨hfr.2.2.2.2.1.trans harch, hfr.2.2.2.1.trans hic⟩
      · rename_i hne
        rw [h] at hne
        simp at hne

/-- Claim C8 (amended): provided no fingerprint eviction can occur (the old
store plus the whole batch fit within capacity F = 1000), a second `check()`
against the same already-downloaded, unchanged payload finds zero new items
and emits zero updates, while `check_count` increments and `item_count`
stays unchanged. -/
theorem C8_idempotent_no_eviction (rand : Int → Int → Int) (f : Feed)
    (doc : FeedDoc) (t1 t2 : Int)
    (hcap : f.fingerprints.length + doc.entries.length ≤ fingerprintCap) :
    (process_feed (check rand f (.ok doc) t1).1 .notModified t2).2 = [] ∧
    (check rand (check rand f (.ok doc) t1).1 .notModified t2).1.archive =
      (check rand f (.ok doc) t1).1.archive ∧
    (check rand (check rand f (.ok doc) t1).1 .notModified t2).1.check_count =
      (check rand f (.ok doc) t1).1.check_count + 1 ∧
    (check rand (check rand f (.ok doc) t1).1 .notModified t2).1.item_count =
      (check rand f (.ok doc) t1).1.item_count := by
  set c1 := (check rand f (.ok doc) t1).1 with hc1
  have hcfp : c1.fingerprints = (process_feed f (.ok doc) t1).1.fingerprints :=
    (check_frame rand f (.ok doc) t1).1
  have hpffp : (process_feed f (.ok doc) t1).1.fingerprints =
      ((doc.entries.map (fun e => mkItem e t1)).filter
        (fun it => !(f.fingerprints.contains it.fingerprint))).map
        (fun it => it.fingerprint) ++ f.fingerprints := by
    have hexpr : (process_feed f (.ok doc) t1).1.fingerprints =
        (((doc.entries.map (fun e => mkItem e t1)).filter
          (fun it => !(f.fingerprints.contains it.fingerprint))).map
          (fun it => it.fingerprint) ++ f.fingerprints).take fingerprintCap := rfl
    rw [hexpr]
    apply List.take_of_length_le
    rw [List.length_append, List.length_map]
    have hfle : ((doc.entries.map (fun e => mkItem e t1)).filter
        (fun it => !(f.fingerprints.contains it.fingerprint))).length ≤
        (doc.entries.map (fun e => mkItem e t1)).length :=
      List.length_filter_le _ _
    rw [List.length_map] at hfle
    omega
  have hmemall : ∀ e ∈ doc.entries, e.fingerprint ∈ c1.fingerprints := by
    intro e he
    rw [hcfp, hpffp]
    by_cases hin : f.fingerprints.contains e.fingerprint = true
    · exact List.mem_append_right _ (contains_iff_mem_fp.mp hin)
    · have hb : f.fingerprints.contains e.fingerprint = false := by
        revert hin
        cases f.fingerprints.contains e.fingerprint <;> simp
      have hmemf : mkItem e t1 ∈ (doc.entries.map (fun x => mkItem x t1)).filter
          (fun it => !(f.fingerprints.contains it.fingerprint)) :=
        List.mem_filter.mpr ⟨List.mem_map_of_mem _ he, by
          show (!(f.fingerprints.contains (mkItem e t1).fingerprint)) = true
          rw [show (mkItem e t1).fingerprint = e.fingerprint from rfl, hb]
          rfl⟩
      exact List.mem_append_left _
        (List.mem_map.mpr ⟨mkItem e t1, hmemf, rfl⟩)
  have hcd : c1.cachedDoc = some doc := by
    rw [hc1, (check_frame rand f (.ok doc) t1).2.1]
    rfl
  have hsnd : (process_feed c1 .notModified t2).2 = [] := by
    rw [process_feed_snd_expr_nm]
    have hfilter : ((c1.cachedDoc.getD {}).entries.map
        (fun e => mkItem e t2)).filter
        (fun it => !(c1.fingerprints.contains it.fingerprint)) = [] := by
      rw [List.filter_eq_nil_iff]
      intro it hit
      obtain ⟨e, he, heq⟩ := List.mem_map.mp hit
      have he2 : e ∈ doc.entries := by
        rw [hcd] at he
        exact he
      have hmem := hmemall e he2
      have hcont : c1.fingerprints.contains it.fingerprint = true := by
        rw [← heq]
        exact contains_iff_mem_fp.mpr hmem
      show ¬((!(c1.fingerprints.contains it.fingerprint)) = true)
      rw [hcont]
      decide
    rw [hfilter]
    split <;> rfl
  obtain ⟨harch, hitem⟩ := check_no_new rand c1 .notModified t2 hsnd
  have hcc : (check rand c1 .notModified t2).1.check_count =
      c1.check_count + 1 := by
    rw [(check_frame rand c1 .notModified t2).2.2.1]
    exact (process_feed_frame c1 .notModified t2).2.2.2.2.2.1
  exact ⟨hsnd, harch, hcc, hitem⟩

/-- Witness for claim C8's amended theorem at a concrete input. -/
theorem C8_witness :
    (process_feed (check rand0 f8w (.ok doc8w) 1000000000).1 .notModified
      1000000010).2 = [] :=
  (C8_idempotent_no_eviction rand0 f8w doc8w 1000000000 1000000010
    (by decide)).1
